import Mathlib

/-!
# log2nsq: buffering dispatcher, envelope builder and hostname discovery

A shallow embedding of `main.go` (package `log2nsq`).  The package-level
variables `l2n`, `connected` and `errorQueue` become the fields of `State`;
every function that touches them takes the state and returns the outcome of
the call together with the state at the point where the call stopped.
Everything the package obtains from other libraries (formatting, unique ids,
the clock, JSON encoding, the interface list, the NSQ producer) is a field of
`Env`.
-/

namespace log2nsq

/-! ## Values, argument slices, maps -/

/-- A Go `interface{}` value passed as a logging argument; `Value.nil` is the
nil interface value. -/
inductive Value where
  | nil
  | str (s : String)
  | int (n : Int)
  deriving DecidableEq, Repr

/-- A variadic `params ...interface{}` slice: `none` is the nil slice (a call
with no variadic argument), `some xs` a non-nil slice with elements `xs`
(so `some []` is a non-nil slice of length 0). -/
abbrev Params := Option (List Value)

/-- A Go `map[string]string`. -/
abbrev StrMap := AList (fun _ : String => String)

/-- A Go `map[string]map[string]string`. -/
abbrev ComboMap := AList (fun _ : String => StrMap)

/-- The loop `for k, v := range src { dst[k] = v }`. -/
def copyInto (src dst : StrMap) : StrMap :=
  src.foldl (fun m k v => m.insert k v) dst

/-- Options for the constructor. -/
structure Options where
  AppName : String
  Addr : String
  ExtraTags : StrMap
  deriving DecidableEq

/-- An `*nsq.Producer`, known by the address and user agent it was built with. -/
structure Producer where
  addr : String
  userAgent : String
  deriving DecidableEq, Repr

/-- The logger: identity tags and the producer. -/
structure Log2Nsq where
  core : StrMap
  producer : Producer
  deriving DecidableEq

/-- One element of `errorQueue`, the array `{line, sev, params}`. -/
structure QueueItem where
  line : String
  sev : String
  params : Params
  deriving DecidableEq, Repr

/-- One write to the standard `log` package, by the statement that made it. -/
inductive LogEntry where
  /-- `log.Println("[log2nsq] Queuing messages...")` -/
  | queuing
  /-- `log.Printf(line, params...)` in `addToQueue` -/
  | line (line : String) (params : Params)
  /-- `log.Println("[log2nsq] Dumping to NSQ")` -/
  | dumping
  /-- `log.Printf("[log2nsq] Error publishing: %s\n", err.Error())` -/
  | publishError (err : String)
  /-- `log.Fatalln("[log2nsq] No application name defined")` -/
  | noAppName
  /-- `log.Printf("[log2nsq] NSQ address not defined, using default %s\n", opts.Addr)` -/
  | defaultAddr (addr : String)
  /-- `log.Printf("[log2nsq] Couldn't find a valid hostname: %s\n", err.Error())` -/
  | hostnameError (err : String)
  /-- `log.Println("[log2nsq] Using localhost to avoid stopping the application here")` -/
  | usingLocalhost
  /-- `log.Fatalf("[log2nsq] Failed to create NSQ producer @ %s\n", opts.Addr)` -/
  | producerFailed (addr : String)
  deriving DecidableEq, Repr

/-! ## Network interfaces (package `net`) -/

/-- A `net.IP`: `none` is the nil slice, `some bs` the bytes. -/
abbrev IP := Option (List Nat)

/-- A `net.Addr` as returned by `iface.Addrs()`. -/
inductive Addr where
  | ipNet (ip : IP)
  | ipAddr (ip : IP)
  | other
  deriving DecidableEq, Repr

/-- A `net.Interface`: its flag bits and what `iface.Addrs()` returns. -/
structure Iface where
  flags : Nat
  addrs : Except String (List Addr)

/-- `net.FlagUp`. -/
def FlagUp : Nat := 1

/-- `net.FlagLoopback`. -/
def FlagLoopback : Nat := 4

/-- `IP.To4`: the 4-byte form of an IPv4 address, nil otherwise. -/
def IP.to4 : IP → IP
  | some [a, b, c, d] => some [a, b, c, d]
  | some [0, 0, 0, 0, 0, 0, 0, 0, 0, 0, 255, 255, a, b, c, d] => some [a, b, c, d]
  | _ => none

/-- `IP.IsLoopback`. -/
def IP.isLoopback (ip : IP) : Bool :=
  match ip.to4 with
  | some (a :: _) => a == 127
  | _ => ip == some [0, 0, 0, 0, 0, 0, 0, 0, 0, 0, 0, 0, 0, 0, 0, 1]

/-- `IP.String` of a 4-byte address: dotted decimal. -/
def IP.toDotted : IP → String
  | some bs => String.intercalate "." (bs.map Nat.repr)
  | none => "<nil>"

/-! ## Environment and state -/

/-- What the package obtains from outside itself. -/
structure Env where
  /-- `fmt.Sprintf` -/
  sprintf : String → List Value → String
  /-- `uuid.New()` for the n-th envelope built -/
  uuid : Nat → String
  /-- `time.Now().Format(time.RFC3339)` for the n-th envelope built -/
  now : Nat → String
  /-- `json.Marshal` -/
  marshal : ComboMap → Except String String
  /-- `net.Interfaces()` -/
  interfaces : Except String (List Iface)
  /-- `nsq.VERSION` -/
  nsqVersion : String
  /-- `nsq.NewProducer(addr, cfg)`, by address and `cfg.UserAgent` -/
  newProducer : String → String → Except String Producer

/-- The package-level variables and the effects observed so far. -/
structure State where
  /-- `var l2n *Log2Nsq` (`none` is nil) -/
  l2n : Option Log2Nsq
  /-- `var connected bool` -/
  connected : Bool
  /-- `var errorQueue [][3]interface{}` -/
  errorQueue : List QueueItem
  /-- writes to the standard logger, oldest first -/
  localLog : List LogEntry
  /-- arguments of the calls of `l2n.publish`, oldest first -/
  published : List ComboMap
  /-- calls `producer.Publish(topic, payload)`, oldest first -/
  sent : List (Producer × String × String)
  /-- number of envelopes built by `buildFinalJSON` -/
  built : Nat

/-- The state after package initialisation (`init` sets `connected = false`). -/
def State.init : State :=
  { l2n := none, connected := false, errorQueue := [], localLog := [],
    published := [], sent := [], built := 0 }

/-- How a call ended, with the state at that point. -/
inductive Res where
  /-- the call returned -/
  | ok (s : State)
  /-- `log.Fatal*` ended the process -/
  | fatal (s : State)
  /-- a run-time panic -/
  | panic (s : State)
  /-- the recursion budget of the model ran out -/
  | outOfFuel

/-- The state at which the call stopped. -/
def Res.final : Res → Option State
  | .ok s => some s
  | .fatal s => some s
  | .panic s => some s
  | .outOfFuel => none

/-! ## The program -/

/-- `const topic`. -/
def topic : String := "log.raw#ephemeral"

/-- `var severity = [3]string{"debug", "info", "error"}`. -/
def severity : Fin 3 → String
  | 0 => "debug"
  | 1 => "info"
  | 2 => "error"

/-- `buildFinalJSON`: the n-th envelope, `n` the number built before it. -/
def buildFinalJSON (env : Env) (l : Log2Nsq) (line : String) (n : Nat) : ComboMap :=
  let json : StrMap := copyInto l.core ∅
  let json := json.insert "uuid" (env.uuid n)
  let json := json.insert "msg" line
  let json := json.insert "timestamp" (env.now n)
  (∅ : ComboMap).insert "data" json

/-- `publish`. -/
def publish (env : Env) (l : Log2Nsq) (comboMap : ComboMap) (s : State) : State :=
  let s := { s with published := s.published ++ [comboMap] }
  match env.marshal comboMap with
  | .ok marshalled => { s with sent := s.sent ++ [(l.producer, topic, marshalled)] }
  | .error err => { s with localLog := s.localLog ++ [LogEntry.publishError err] }

/-- The address loop of `getHostname` for one interface: the first address
that is not nil, not loopback and has a 4-byte form. -/
def firstAddr : List Addr → Option String
  | [] => none
  | addr :: rest =>
    let ip : IP :=
      match addr with
      | .ipNet v => v
      | .ipAddr v => v
      | .other => none
    if ip == none || ip.isLoopback then firstAddr rest
    else
      let ip := ip.to4
      if ip == none then firstAddr rest
      else some ip.toDotted

/-- The interface loop of `getHostname`. -/
def hostnameLoop : List Iface → Except String String
  | [] => .error "No IP address found"
  | iface :: rest =>
    if iface.flags &&& FlagUp == 0 then hostnameLoop rest
    else if iface.flags &&& FlagLoopback == 0 then hostnameLoop rest
    else
      match iface.addrs with
      | .error err => .error err
      | .ok addrs =>
        match firstAddr addrs with
        | some name => .ok name
        | none => hostnameLoop rest

/-- `getHostname`. -/
def getHostname (env : Env) : Except String String :=
  match env.interfaces with
  | .error err => .error err
  | .ok ifaces => hostnameLoop ifaces

/-- The default-address step of `newLogger`: the address used and the state. -/
def defaultAddr (opts : Options) (s : State) : String × State :=
  if opts.Addr.length == 0 then
    ("172.22.34.183:4150",
      { s with localLog := s.localLog ++ [LogEntry.defaultAddr "172.22.34.183:4150"] })
  else (opts.Addr, s)

/-- The hostname step of `newLogger`: the hostname used and the state. -/
def findHostname (env : Env) (s : State) : String × State :=
  match getHostname env with
  | .ok hostname => (hostname, s)
  | .error err =>
    ("127.0.0.1",
      { s with localLog := s.localLog ++ [LogEntry.hostnameError err, LogEntry.usingLocalhost] })

/-- `newLogger`: the logger and the state, or the state at the fatal exit. -/
def newLogger (env : Env) (opts : Options) (s : State) : Except State (Log2Nsq × State) :=
  if opts.AppName.length == 0 then
    .error { s with localLog := s.localLog ++ [LogEntry.noAppName] }
  else
    let a := defaultAddr opts s
    let h := findHostname env a.2
    let userAgent := env.sprintf "%s go-nsq/%s" [Value.str opts.AppName, Value.str env.nsqVersion]
    match env.newProducer a.1 userAgent with
    | .error _ =>
      .error { h.2 with localLog := h.2.localLog ++ [LogEntry.producerFailed a.1] }
    | .ok producer =>
      let core : StrMap := ∅
      let core := core.insert "hostname" h.1
      let core := core.insert "application" opts.AppName
      let core := copyInto opts.ExtraTags core
      .ok ({ core := core, producer := producer }, h.2)

/-- `addToQueue`. -/
def addToQueue (line sev : String) (params : Params) (s : State) : State :=
  let s :=
    if !s.connected && s.errorQueue.length == 0 then
      { s with localLog := s.localLog ++ [LogEntry.queuing] }
    else s
  let s := { s with localLog := s.localLog ++ [LogEntry.line line params] }
  { s with errorQueue := s.errorQueue ++ [{ line := line, sev := sev, params := params }] }

/-- The loop of `emptyQueue` over the queue as it was when the loop started,
`dump` being the dispatcher it calls. -/
def emptyQueueLoop (dump : String → String → Params → State → Res) :
    List QueueItem → State → Res
  | [], s => .ok s
  | queueItem :: rest, s =>
    match dump queueItem.line queueItem.sev queueItem.params s with
    | .ok s => emptyQueueLoop dump rest s
    | r => r

/-- `emptyQueue`, `dump` being the dispatcher it calls. -/
def emptyQueue (dump : String → String → Params → State → Res) (s : State) : Res :=
  match emptyQueueLoop dump s.errorQueue s with
  | .ok s => .ok { s with errorQueue := s.errorQueue.take 0 }
  | r => r

/-- The tail of `dumpToNsq`, after the queue was handled: resolve the message,
build the envelope, set the severity, publish. -/
def dumpDirect (env : Env) (line sev : String) (params : Params) (s : State) : Res :=
  match s.l2n with
  | none => .panic s
  | some l =>
    let build (msg : String) : Res :=
      let comboMap := buildFinalJSON env l msg s.built
      let s := { s with built := s.built + 1 }
      match comboMap.lookup "data" with
      | none => .panic s
      | some data =>
        let comboMap := comboMap.insert "data" (data.insert "severity" sev)
        .ok (publish env l comboMap s)
    match params with
    | none => build line
    | some [] => .panic s
    | some (p :: ps) =>
      if p = Value.nil then build line
      else build (env.sprintf line (p :: ps))

/-- `dumpToNsq`; the first argument bounds the depth of the recursion through
`emptyQueue`. -/
def dumpToNsq (env : Env) : Nat → String → String → Params → State → Res
  | 0, _, _, _, _ => .outOfFuel
  | fuel + 1, line, sev, params, s =>
    match s.l2n with
    | none => .ok (addToQueue line sev params s)
    | some _ =>
      let r :=
        if !s.connected then
          emptyQueue (dumpToNsq env fuel)
            { s with connected := true, localLog := s.localLog ++ [LogEntry.dumping] }
        else .ok s
      match r with
      | .ok s => dumpDirect env line sev params s
      | r => r

/-- `Tracef`. -/
def Tracef (env : Env) (line : String) (params : Params) (s : State) : Res :=
  dumpToNsq env 2 line (severity 0) params s

/-- `Printf`. -/
def Printf (env : Env) (line : String) (params : Params) (s : State) : Res :=
  dumpToNsq env 2 line (severity 1) params s

/-- `Println`: the untyped `nil` becomes the one element of the slice. -/
def Println (env : Env) (line : String) (s : State) : Res :=
  dumpToNsq env 2 line (severity 1) (some [Value.nil]) s

/-- `Errorf`. -/
def Errorf (env : Env) (line : String) (params : Params) (s : State) : Res :=
  dumpToNsq env 2 line (severity 2) params s

/-- `NewLog2Nsq`. -/
def NewLog2Nsq (env : Env) (opts : Options) (s : State) : Res :=
  match newLogger env opts s with
  | .error s => .fatal s
  | .ok (l, s) => .ok { s with l2n := some l }

/-! ## Closed forms, observations and worked examples used in the proofs -/

/-- The field `comboMap["data"][k]` of an envelope. -/
def field (c : ComboMap) (k : String) : Option String :=
  (c.lookup "data").bind (fun d => d.lookup k)

/-- The message `dumpToNsq` resolves for a call, `none` where `params[0]` is
read from a non-nil slice of length 0. -/
def resolveMsg (env : Env) (line : String) : Params → Option String
  | none => some line
  | some [] => none
  | some (p :: ps) => if p = Value.nil then some line else some (env.sprintf line (p :: ps))

/-- The inner map of the envelope `dumpToNsq` hands to `publish`. -/
def envelopeData (env : Env) (l : Log2Nsq) (msg sev : String) (n : Nat) : StrMap :=
  ((((copyInto l.core ∅).insert "uuid" (env.uuid n)).insert "msg" msg).insert
    "timestamp" (env.now n)).insert "severity" sev

/-- The envelope `dumpToNsq` hands to `publish`. -/
def envelope (env : Env) (l : Log2Nsq) (msg sev : String) (n : Nat) : ComboMap :=
  (buildFinalJSON env l msg n).insert "data" (envelopeData env l msg sev n)

/-- The state after a direct dispatch that resolved to `msg`. -/
def directState (env : Env) (l : Log2Nsq) (msg sev : String) (s : State) : State :=
  publish env l (envelope env l msg sev s.built) { s with built := s.built + 1 }

/-- The drain in closed form for a logger `l`: stop at the first item whose
message does not resolve. -/
def drainWith (env : Env) (l : Log2Nsq) : List QueueItem → State → Res
  | [], s => .ok s
  | c :: rest, s =>
    match resolveMsg env c.line c.params with
    | some msg => drainWith env l rest (directState env l msg c.sev s)
    | none => .panic s

/-- The envelopes the drain publishes for a queue, the first one being the
n-th envelope built: one per item, up to the first item that does not resolve. -/
def drainEnvelopes (env : Env) (l : Log2Nsq) : List QueueItem → Nat → List ComboMap
  | [], _ => []
  | c :: rest, n =>
    match resolveMsg env c.line c.params with
    | some msg => envelope env l msg c.sev n :: drainEnvelopes env l rest (n + 1)
    | none => []

/-- The calls written to the local log by `addToQueue`, oldest first. -/
def lineEntries : List LogEntry → List (String × Params)
  | [] => []
  | LogEntry.line line params :: rest => (line, params) :: lineEntries rest
  | _ :: rest => lineEntries rest

/-- The queue a dispatch drains before it publishes its own envelope. -/
def pending (s : State) : List QueueItem :=
  if s.connected then [] else s.errorQueue

/-- A dispatch with logger `l` present, in closed form. -/
def dispatchWith (env : Env) (l : Log2Nsq) (line sev : String) (params : Params)
    (s : State) : Res :=
  let r :=
    if !s.connected then
      match drainWith env l s.errorQueue
          { s with connected := true, localLog := s.localLog ++ [LogEntry.dumping] } with
      | Res.ok s => Res.ok { s with errorQueue := s.errorQueue.take 0 }
      | r => r
    else Res.ok s
  match r with
  | .ok s => dumpDirect env line sev params s
  | r => r

/-- The (msg, severity) pair of an envelope. -/
def msgSev (e : ComboMap) : Option String × Option String :=
  (field e "msg", field e "severity")

/-- The (msg, severity) pair a queued call resolves to. -/
def QueueItem.msgSev (env : Env) (c : QueueItem) : Option String × Option String :=
  (resolveMsg env c.line c.params, some c.sev)

/-- Two states that differ at most in the local log, and there not in the
calls written by `addToQueue`. -/
def sameButLog (s s' : State) : Prop :=
  s'.l2n = s.l2n ∧ s'.connected = s.connected ∧ s'.errorQueue = s.errorQueue ∧
    s'.published = s.published ∧ s'.sent = s.sent ∧ s'.built = s.built ∧
    lineEntries s'.localLog = lineEntries s.localLog

/-- A call of the public logging surface. -/
inductive Call where
  | tracef (line : String) (params : Params)
  | printf (line : String) (params : Params)
  | println (line : String)
  | errorf (line : String) (params : Params)

/-- The public function the call invokes. -/
def Call.run (env : Env) : Call → State → Res
  | .tracef line params => Tracef env line params
  | .printf line params => Printf env line params
  | .println line => Println env line
  | .errorf line params => Errorf env line params

/-- The template of the call. -/
def Call.line : Call → String
  | .tracef line _ => line
  | .printf line _ => line
  | .println line => line
  | .errorf line _ => line

/-- The argument slice `dumpToNsq` receives from the call. -/
def Call.params : Call → Params
  | .tracef _ params => params
  | .printf _ params => params
  | .println _ => some [Value.nil]
  | .errorf _ params => params

/-- The severity the public call surface documents for the call. -/
def Call.tag : Call → String
  | .tracef _ _ => "debug"
  | .printf _ _ => "info"
  | .println _ => "info"
  | .errorf _ _ => "error"

/-- A public operation of the package. -/
inductive Op where
  | call (c : Call)
  | newLog2Nsq (opts : Options)

/-- The public function the operation invokes. -/
def Op.run (env : Env) : Op → State → Res
  | .call c => c.run env
  | .newLog2Nsq opts => NewLog2Nsq env opts

/-- The states a process can be in between public operations: the initial one
and every state an operation returned in. -/
inductive Reachable : State → Prop where
  | init : Reachable State.init
  | step (env : Env) (op : Op) (s s' : State) :
      Reachable s → op.run env s = .ok s' → Reachable s'

/-- The dispatch state `Flushed`. -/
def Flushed (s : State) : Prop :=
  s.l2n ≠ none ∧ s.connected = true ∧ s.errorQueue = []

/-- Run a second operation when the first one returned. -/
def Res.andThen : Res → (State → Res) → Res
  | .ok s, f => f s
  | r, _ => r

/-- An environment for the worked examples: one up, non-loopback interface
`192.168.1.5`, a formatter that appends the number of arguments. -/
def exampleEnv : Env :=
  { sprintf := fun line ps => line ++ "/" ++ Nat.repr ps.length
    uuid := fun n => "uuid-" ++ Nat.repr n
    now := fun n => "time-" ++ Nat.repr n
    marshal := fun _ => .ok "payload"
    interfaces := .ok [{ flags := 19, addrs := .ok [Addr.ipNet (some [192, 168, 1, 5])] }]
    nsqVersion := "1.0"
    newProducer := fun addr userAgent => .ok { addr := addr, userAgent := userAgent } }

/-- Options for the worked examples. -/
def exampleOptions : Options :=
  { AppName := "app", Addr := "127.0.0.1:4150",
    ExtraTags := (∅ : StrMap).insert "region" "us" }

/-- Whether the call ended in a run-time panic. -/
def Res.isPanic : Res → Bool
  | .panic _ => true
  | _ => false

/-- Options whose extra tags use the keys `msg` and `application`. -/
def clashingOptions : Options :=
  { AppName := "app", Addr := "127.0.0.1:4150",
    ExtraTags := ((∅ : StrMap).insert "msg" "tagged").insert "application" "other" }

/-- The state after `NewLog2Nsq(exampleOptions)` in the example environment. -/
def exampleStarted : State :=
  ((NewLog2Nsq exampleEnv exampleOptions State.init).final).getD State.init

/-- The queue item `dumpToNsq` stores or publishes for a call. -/
def Call.item (c : Call) : QueueItem :=
  { line := c.line, sev := c.tag, params := c.params }

/-- Run the calls one after the other, stopping at the first that does not return. -/
def runCalls (env : Env) : List Call → State → Res
  | [], s => .ok s
  | c :: rest, s => (c.run env s).andThen (runCalls env rest)

/-- Run the operations one after the other, stopping at the first that does
not return. -/
def runOps (env : Env) : List Op → State → Res
  | [], s => .ok s
  | op :: rest, s => (op.run env s).andThen (runOps env rest)

/-- The calls of a run that come before its first `NewLog2Nsq`. -/
def queuedCalls : List Op → List Call
  | Op.call c :: rest => c :: queuedCalls rest
  | _ => []

/-- An environment with one up loopback interface `lo` carrying `127.0.0.1`
and the alias `10.0.0.7`, and one up Ethernet interface carrying `192.168.1.5`. -/
def twoInterfaces : Env :=
  { exampleEnv with
    interfaces := .ok
      [{ flags := 5,
         addrs := .ok [Addr.ipNet (some [127, 0, 0, 1]), Addr.ipNet (some [10, 0, 0, 7])] },
       { flags := 19, addrs := .ok [Addr.ipNet (some [192, 168, 1, 5])] }] }

/-! ## Theorems -/

theorem lookup_foldl_insert (k : String) :
    ∀ (es : List (Sigma (fun _ : String => String))) (dst : StrMap), es.NodupKeys →
      (es.foldl (fun m e => m.insert e.1 e.2) dst).lookup k
        = (List.dlookup k es <|> dst.lookup k)
  | [], dst, _ => by simp
  | e :: es, dst, h => by
    obtain ⟨a, b⟩ := e
    rw [List.nodupKeys_cons] at h
    rw [List.foldl_cons, lookup_foldl_insert k es _ h.2]
    by_cases hk : k = a
    · subst hk
      have : List.dlookup k es = none := List.dlookup_eq_none.mpr h.1
      simp [this]
    · have hk2 : k ≠ (⟨a, b⟩ : Sigma (fun _ : String => String)).1 := hk
      rw [List.dlookup_cons_ne _ _ hk2, AList.lookup_insert_ne hk]

theorem lookup_copyInto (src dst : StrMap) (k : String) :
    (copyInto src dst).lookup k = (src.lookup k <|> dst.lookup k) := by
  unfold copyInto AList.foldl
  exact lookup_foldl_insert k src.entries dst src.nodupKeys

theorem lookup_data_build (env : Env) (l : Log2Nsq) (msg : String) (n : Nat) :
    (buildFinalJSON env l msg n).lookup "data"
      = some ((((copyInto l.core ∅).insert "uuid" (env.uuid n)).insert "msg" msg).insert
          "timestamp" (env.now n)) := by
  unfold buildFinalJSON
  exact AList.lookup_insert _

theorem dumpDirect_eq (env : Env) (line sev : String) (params : Params) (s : State)
    (l : Log2Nsq) (h : s.l2n = some l) :
    dumpDirect env line sev params s =
      match resolveMsg env line params with
      | some msg => .ok (directState env l msg sev s)
      | none => .panic s := by
  unfold dumpDirect
  split
  · rename_i h2
    rw [h] at h2
    cases h2
  · rename_i l2 h2
    rw [h] at h2
    cases h2
    match params with
    | none => simp only [resolveMsg, lookup_data_build, directState, envelope, envelopeData]
    | some [] => simp only [resolveMsg]
    | some (p :: ps) =>
      by_cases hp : p = Value.nil <;>
        simp only [resolveMsg, hp, if_true, if_false, lookup_data_build, directState, envelope,
          envelopeData]

theorem lineEntries_append (xs ys : List LogEntry) :
    lineEntries (xs ++ ys) = lineEntries xs ++ lineEntries ys := by
  induction xs with
  | nil => rfl
  | cons x xs ih => cases x <;> simp [lineEntries, ih]

theorem resolveMsg_eq_none (env : Env) (line : String) (params : Params) :
    resolveMsg env line params = none ↔ params = some [] := by
  match params with
  | none => simp [resolveMsg]
  | some [] => simp [resolveMsg]
  | some (p :: ps) => by_cases hp : p = Value.nil <;> simp [resolveMsg, hp]

theorem directState_l2n (env : Env) (l : Log2Nsq) (msg sev : String) (s : State) :
    (directState env l msg sev s).l2n = s.l2n := by
  unfold directState publish; split <;> rfl

theorem directState_connected (env : Env) (l : Log2Nsq) (msg sev : String) (s : State) :
    (directState env l msg sev s).connected = s.connected := by
  unfold directState publish; split <;> rfl

theorem directState_errorQueue (env : Env) (l : Log2Nsq) (msg sev : String) (s : State) :
    (directState env l msg sev s).errorQueue = s.errorQueue := by
  unfold directState publish; split <;> rfl

theorem directState_built (env : Env) (l : Log2Nsq) (msg sev : String) (s : State) :
    (directState env l msg sev s).built = s.built + 1 := by
  unfold directState publish; split <;> rfl

theorem directState_published (env : Env) (l : Log2Nsq) (msg sev : String) (s : State) :
    (directState env l msg sev s).published = s.published ++ [envelope env l msg sev s.built] := by
  unfold directState publish; split <;> rfl

theorem directState_lineEntries (env : Env) (l : Log2Nsq) (msg sev : String) (s : State) :
    lineEntries (directState env l msg sev s).localLog = lineEntries s.localLog := by
  unfold directState publish
  split
  · rfl
  · simp [lineEntries_append, lineEntries]

/-- What the drain in closed form does: it stops in a state that differs from
the start only by the envelopes published (and publish errors logged), and it
returns exactly when every item resolves. -/
theorem drainWith_final (env : Env) (l : Log2Nsq) :
    ∀ (q : List QueueItem) (s : State), ∃ s',
      (drainWith env l q s).final = some s' ∧ s'.l2n = s.l2n ∧ s'.connected = s.connected ∧
      s'.errorQueue = s.errorQueue ∧ lineEntries s'.localLog = lineEntries s.localLog ∧
      s'.published = s.published ++ drainEnvelopes env l q s.built ∧
      s'.built = s.built + (drainEnvelopes env l q s.built).length ∧
      ((∀ c ∈ q, c.params ≠ some []) → drainWith env l q s = .ok s') ∧
      ((∃ c ∈ q, c.params = some []) → drainWith env l q s = .panic s')
  | [], s => ⟨s, by simp [drainWith, Res.final, drainEnvelopes]⟩
  | c :: rest, s => by
    cases hm : resolveMsg env c.line c.params with
    | none =>
      refine ⟨s, ?_⟩
      have hc : c.params = some [] := (resolveMsg_eq_none env c.line c.params).mp hm
      simp [drainWith, hm, Res.final, drainEnvelopes]
      exact fun h => absurd hc h
    | some msg =>
      have hc : c.params ≠ some [] := fun h => by
        rw [(resolveMsg_eq_none env c.line c.params).mpr h] at hm; cases hm
      obtain ⟨s', h1, h2, h3, h4, h5, h6, h7, h8, h9⟩ :=
        drainWith_final env l rest (directState env l msg c.sev s)
      refine ⟨s', ?_, ?_, ?_, ?_, ?_, ?_, ?_, ?_, ?_⟩
      · simpa [drainWith, hm] using h1
      · rw [h2, directState_l2n]
      · rw [h3, directState_connected]
      · rw [h4, directState_errorQueue]
      · rw [h5, directState_lineEntries]
      · rw [h6, directState_published, directState_built]
        simp [drainEnvelopes, hm]
      · rw [h7, directState_built]
        simp [drainEnvelopes, hm]
        omega
      · intro hall
        simp only [drainWith, hm]
        exact h8 (fun c hcm => hall c (List.mem_cons_of_mem _ hcm))
      · rintro ⟨c2, hc2, hbad⟩
        simp only [drainWith, hm]
        rcases List.mem_cons.mp hc2 with h | h
        · subst h; exact absurd hbad hc
        · exact h9 ⟨c2, h, hbad⟩

theorem dumpToNsq_direct (env : Env) (fuel : Nat) (line sev : String) (params : Params)
    (s : State) (l : Log2Nsq) (h : s.l2n = some l) (hc : s.connected = true) :
    dumpToNsq env (fuel + 1) line sev params s = dumpDirect env line sev params s := by
  simp [dumpToNsq, h, hc]

theorem emptyQueueLoop_eq (env : Env) (fuel : Nat) (l : Log2Nsq) :
    ∀ (q : List QueueItem) (s : State), s.l2n = some l → s.connected = true →
      emptyQueueLoop (dumpToNsq env (fuel + 1)) q s = drainWith env l q s
  | [], s, _, _ => rfl
  | c :: rest, s, h, hc => by
    simp only [emptyQueueLoop, drainWith]
    rw [dumpToNsq_direct env fuel _ _ _ s l h hc, dumpDirect_eq env _ _ _ s l h]
    cases hm : resolveMsg env c.line c.params with
    | none => rfl
    | some msg =>
      simp only []
      exact emptyQueueLoop_eq env fuel l rest _ (by rw [directState_l2n, h])
        (by rw [directState_connected, hc])

theorem dumpToNsq_some (env : Env) (fuel : Nat) (line sev : String) (params : Params)
    (s : State) (l : Log2Nsq) (h : s.l2n = some l) :
    dumpToNsq env (fuel + 2) line sev params s = dispatchWith env l line sev params s := by
  unfold dispatchWith
  rw [dumpToNsq]
  simp only [h, emptyQueue]
  rw [emptyQueueLoop_eq env fuel l s.errorQueue _ rfl rfl]

theorem dumpToNsq_none (env : Env) (fuel : Nat) (line sev : String) (params : Params)
    (s : State) (h : s.l2n = none) :
    dumpToNsq env (fuel + 1) line sev params s = .ok (addToQueue line sev params s) := by
  simp [dumpToNsq, h]

/-- The recursion budget 2 used by the public calls is enough: a larger one
gives the same outcome. -/
theorem dumpToNsq_fuel (env : Env) (fuel : Nat) (line sev : String) (params : Params)
    (s : State) :
    dumpToNsq env (fuel + 2) line sev params s = dumpToNsq env 2 line sev params s := by
  cases h : s.l2n with
  | none => rw [dumpToNsq_none env (fuel + 1) _ _ _ s h, dumpToNsq_none env 1 _ _ _ s h]
  | some l => rw [dumpToNsq_some env fuel _ _ _ s l h, dumpToNsq_some env 0 _ _ _ s l h]

theorem drainEnvelopes_length_le (env : Env) (l : Log2Nsq) :
    ∀ (q : List QueueItem) (n : Nat), (drainEnvelopes env l q n).length ≤ q.length
  | [], _ => by simp [drainEnvelopes]
  | c :: rest, n => by
    cases hm : resolveMsg env c.line c.params with
    | none => simp [drainEnvelopes, hm]
    | some msg => simpa [drainEnvelopes, hm] using drainEnvelopes_length_le env l rest (n + 1)

theorem drainEnvelopes_append_good (env : Env) (l : Log2Nsq) (r : List QueueItem) :
    ∀ (q : List QueueItem) (n : Nat), (∀ c ∈ q, c.params ≠ some []) →
      drainEnvelopes env l (q ++ r) n
          = drainEnvelopes env l q n ++ drainEnvelopes env l r (n + q.length) ∧
        (drainEnvelopes env l q n).length = q.length
  | [], n, _ => by simp [drainEnvelopes]
  | c :: rest, n, hall => by
    cases hm : resolveMsg env c.line c.params with
    | none =>
      exact absurd ((resolveMsg_eq_none env c.line c.params).mp hm) (hall c (List.mem_cons_self _ _))
    | some msg =>
      obtain ⟨h1, h2⟩ := drainEnvelopes_append_good env l r rest (n + 1)
        (fun c hc => hall c (List.mem_cons_of_mem _ hc))
      rw [List.cons_append]
      simp only [drainEnvelopes, hm, List.length_cons, h1, h2, List.cons_append]
      rw [show n + 1 + rest.length = n + (rest.length + 1) by omega]
      exact ⟨rfl, trivial⟩

theorem drainEnvelopes_append_bad (env : Env) (l : Log2Nsq) (r : List QueueItem) :
    ∀ (q : List QueueItem) (n : Nat), (∃ c ∈ q, c.params = some []) →
      drainEnvelopes env l (q ++ r) n = drainEnvelopes env l q n
  | [], n, h => by simp at h
  | c :: rest, n, h => by
    cases hm : resolveMsg env c.line c.params with
    | none => simp [drainEnvelopes, hm]
    | some msg =>
      have hc : c.params ≠ some [] := fun h => by
        rw [(resolveMsg_eq_none env c.line c.params).mpr h] at hm; cases hm
      obtain ⟨c2, hc2, hbad⟩ := h
      rcases List.mem_cons.mp hc2 with h | h
      · subst h; exact absurd hbad hc
      · simp [drainEnvelopes, hm, drainEnvelopes_append_bad env l r rest (n + 1) ⟨c2, h, hbad⟩]

theorem drainEnvelopes_single (env : Env) (l : Log2Nsq) (c : QueueItem) (n : Nat) :
    drainEnvelopes env l [c] n =
      match resolveMsg env c.line c.params with
      | some msg => [envelope env l msg c.sev n]
      | none => [] := by
  cases hm : resolveMsg env c.line c.params <;> simp [drainEnvelopes, hm]

/-- What a dispatch with a logger present does, whatever the arguments: it
stops in a state whose publications grew by the envelopes of the pending queue
followed by its own, up to the first call whose message does not resolve; it
returns exactly when all of them resolve, and panics otherwise. -/
theorem dispatchWith_final (env : Env) (l : Log2Nsq) (line sev : String) (params : Params)
    (s : State) (h : s.l2n = some l) :
    ∃ s', (dispatchWith env l line sev params s).final = some s' ∧
      s'.l2n = some l ∧ s'.connected = true ∧
      lineEntries s'.localLog = lineEntries s.localLog ∧
      s'.published = s.published ++
        drainEnvelopes env l (pending s ++ [{ line := line, sev := sev, params := params }]) s.built ∧
      s'.built = s.built +
        (drainEnvelopes env l (pending s ++ [{ line := line, sev := sev, params := params }])
          s.built).length ∧
      ((∀ c ∈ pending s ++ [{ line := line, sev := sev, params := params }], c.params ≠ some []) →
        dispatchWith env l line sev params s = .ok s' ∧ s'.errorQueue = if s.connected then s.errorQueue else []) ∧
      ((∃ c ∈ pending s ++ [{ line := line, sev := sev, params := params }], c.params = some []) →
        dispatchWith env l line sev params s = .panic s') := by
  by_cases hc : s.connected = true
  · have hp : pending s = [] := by simp [pending, hc]
    have hd : dispatchWith env l line sev params s = dumpDirect env line sev params s := by
      simp [dispatchWith, hc]
    rw [hd, hp, dumpDirect_eq env line sev params s l h, List.nil_append, drainEnvelopes_single]
    cases hm : resolveMsg env line params with
    | none =>
      have hbad : params = some [] := (resolveMsg_eq_none env line params).mp hm
      refine ⟨s, rfl, h, hc, rfl, by simp, by simp, ?_, fun _ => rfl⟩
      intro hall
      exact absurd hbad (hall _ (List.mem_singleton.mpr rfl))
    | some msg =>
      have hgood : params ≠ some [] := fun hb => by
        rw [(resolveMsg_eq_none env line params).mpr hb] at hm; cases hm
      refine ⟨directState env l msg sev s, rfl, ?_, ?_, directState_lineEntries _ _ _ _ _,
        directState_published _ _ _ _ _, ?_, fun _ => ⟨rfl, ?_⟩, ?_⟩
      · rw [directState_l2n, h]
      · rw [directState_connected, hc]
      · simp [directState_built]
      · simp [directState_errorQueue, hc]
      · rintro ⟨c, hcm, hbad⟩
        rw [List.mem_singleton.mp hcm] at hbad
        exact absurd hbad hgood
  · have hcf : s.connected = false := by simpa using hc
    have hp : pending s = s.errorQueue := by simp [pending, hcf]
    obtain ⟨s2, h1, h2, h3, h4, h5, h6, h7, h8, h9⟩ := drainWith_final env l s.errorQueue
      { s with connected := true, localLog := s.localLog ++ [LogEntry.dumping] }
    have h5' : lineEntries s2.localLog = lineEntries s.localLog := by
      rw [h5]; simp [lineEntries_append, lineEntries]
    simp only [] at h2 h3 h4 h6 h7
    rw [hp]
    by_cases hall : ∀ c ∈ s.errorQueue, c.params ≠ some []
    · obtain ⟨ha, hlen⟩ := drainEnvelopes_append_good env l
        [{ line := line, sev := sev, params := params }] s.errorQueue s.built hall
      have hd : dispatchWith env l line sev params s
          = dumpDirect env line sev params { s2 with errorQueue := s2.errorQueue.take 0 } := by
        simp only [dispatchWith, hcf, h8 hall]
        rfl
      have hl3 : ({ s2 with errorQueue := s2.errorQueue.take 0 } : State).l2n = some l := by
        show s2.l2n = some l
        rw [h2, h]
      rw [hd, dumpDirect_eq env line sev params _ l hl3, ha, drainEnvelopes_single]
      cases hm : resolveMsg env line params with
      | none =>
        have hbad : params = some [] := (resolveMsg_eq_none env line params).mp hm
        refine ⟨{ s2 with errorQueue := s2.errorQueue.take 0 }, rfl, hl3, h3, h5', ?_, ?_, ?_,
          fun _ => rfl⟩
        · simpa using h6
        · simpa using h7
        · intro hall2
          exact absurd hbad (hall2 _ (List.mem_append_right _ (List.mem_singleton.mpr rfl)))
      | some msg =>
        have hgood : params ≠ some [] := fun hb => by
          rw [(resolveMsg_eq_none env line params).mpr hb] at hm; cases hm
        refine ⟨directState env l msg sev { s2 with errorQueue := s2.errorQueue.take 0 }, rfl,
          ?_, ?_, ?_, ?_, ?_, fun _ => ⟨rfl, ?_⟩, ?_⟩
        · rw [directState_l2n]; exact hl3
        · rw [directState_connected]; exact h3
        · rw [directState_lineEntries]; exact h5'
        · rw [directState_published]
          show s2.published ++ [envelope env l msg sev s2.built] = _
          rw [h6, h7, hlen, List.append_assoc]
        · rw [directState_built]
          show s2.built + 1 = _
          rw [h7, hlen]
          simp
          omega
        · simp [directState_errorQueue, hcf]
        · rintro ⟨c, hcm, hbad⟩
          rcases List.mem_append.mp hcm with hq | hq
          · exact absurd hbad (hall c hq)
          · rw [List.mem_singleton.mp hq] at hbad
            exact absurd hbad hgood
    · have hex : ∃ c ∈ s.errorQueue, c.params = some [] := by
        by_contra hne
        exact hall (fun c hcm hb => hne ⟨c, hcm, hb⟩)
      have hd : dispatchWith env l line sev params s = .panic s2 := by
        simp only [dispatchWith, hcf, h9 hex]
        rfl
      rw [hd, drainEnvelopes_append_bad env l _ s.errorQueue s.built hex]
      refine ⟨s2, rfl, by rw [h2, h], h3, h5', h6, h7, ?_, fun _ => rfl⟩
      intro hall2
      exact absurd (fun c hcm => hall2 c (List.mem_append_left _ hcm)) hall

theorem field_envelope (env : Env) (l : Log2Nsq) (msg sev : String) (n : Nat) (k : String) :
    field (envelope env l msg sev n) k = (envelopeData env l msg sev n).lookup k := by
  unfold field envelope
  rw [AList.lookup_insert]
  rfl

theorem field_envelope_severity (env : Env) (l : Log2Nsq) (msg sev : String) (n : Nat) :
    field (envelope env l msg sev n) "severity" = some sev := by
  rw [field_envelope]
  unfold envelopeData
  exact AList.lookup_insert _

theorem field_envelope_msg (env : Env) (l : Log2Nsq) (msg sev : String) (n : Nat) :
    field (envelope env l msg sev n) "msg" = some msg := by
  rw [field_envelope]
  unfold envelopeData
  rw [AList.lookup_insert_ne (by decide), AList.lookup_insert_ne (by decide)]
  exact AList.lookup_insert _

/-- A key that `buildFinalJSON` and `dumpToNsq` do not write keeps the value
the logger holds for it. -/
theorem field_envelope_core (env : Env) (l : Log2Nsq) (msg sev : String) (n : Nat) (k : String)
    (h1 : k ≠ "uuid") (h2 : k ≠ "msg") (h3 : k ≠ "timestamp") (h4 : k ≠ "severity") :
    field (envelope env l msg sev n) k = l.core.lookup k := by
  rw [field_envelope]
  unfold envelopeData
  rw [AList.lookup_insert_ne h4, AList.lookup_insert_ne h3, AList.lookup_insert_ne h2,
    AList.lookup_insert_ne h1, lookup_copyInto]
  simp

theorem mem_drainEnvelopes (env : Env) (l : Log2Nsq) (e : ComboMap) :
    ∀ (q : List QueueItem) (n : Nat), e ∈ drainEnvelopes env l q n →
      ∃ c ∈ q, ∃ msg m, resolveMsg env c.line c.params = some msg ∧ e = envelope env l msg c.sev m
  | [], _, h => by simp [drainEnvelopes] at h
  | c :: rest, n, h => by
    cases hm : resolveMsg env c.line c.params with
    | none => simp [drainEnvelopes, hm] at h
    | some msg =>
      simp only [drainEnvelopes, hm, List.mem_cons] at h
      rcases h with h | h
      · exact ⟨c, List.mem_cons_self _ _, msg, n, hm, h⟩
      · obtain ⟨c2, hc2, r⟩ := mem_drainEnvelopes env l e rest (n + 1) h
        exact ⟨c2, List.mem_cons_of_mem _ hc2, r⟩

theorem drainEnvelopes_msgSev_good (env : Env) (l : Log2Nsq) :
    ∀ (q : List QueueItem) (n : Nat), (∀ c ∈ q, c.params ≠ some []) →
      (drainEnvelopes env l q n).map msgSev = q.map (QueueItem.msgSev env)
  | [], _, _ => rfl
  | c :: rest, n, hall => by
    cases hm : resolveMsg env c.line c.params with
    | none =>
      exact absurd ((resolveMsg_eq_none env c.line c.params).mp hm) (hall c (List.mem_cons_self _ _))
    | some msg =>
      simp only [drainEnvelopes, hm, List.map_cons]
      rw [drainEnvelopes_msgSev_good env l rest (n + 1)
        (fun c hc => hall c (List.mem_cons_of_mem _ hc))]
      simp [msgSev, QueueItem.msgSev, field_envelope_msg, field_envelope_severity, hm]

theorem drainEnvelopes_severity_initial (env : Env) (l : Log2Nsq) :
    ∀ (q : List QueueItem) (n : Nat),
      (drainEnvelopes env l q n).map (fun e => field e "severity")
        <+: q.map (fun c => some c.sev)
  | [], _ => by simp [drainEnvelopes]
  | c :: rest, n => by
    cases hm : resolveMsg env c.line c.params with
    | none => simp [drainEnvelopes, hm]
    | some msg =>
      simp only [drainEnvelopes, hm, List.map_cons, field_envelope_severity]
      exact (List.prefix_cons_inj _).mpr (drainEnvelopes_severity_initial env l rest (n + 1))

theorem sameButLog_trans {s s' s'' : State} (h1 : sameButLog s s') (h2 : sameButLog s' s'') :
    sameButLog s s'' := by
  obtain ⟨a1, a2, a3, a4, a5, a6, a7⟩ := h1
  obtain ⟨b1, b2, b3, b4, b5, b6, b7⟩ := h2
  exact ⟨b1.trans a1, b2.trans a2, b3.trans a3, b4.trans a4, b5.trans a5, b6.trans a6,
    b7.trans a7⟩

theorem defaultAddr_same (opts : Options) (s : State) : sameButLog s (defaultAddr opts s).2 := by
  unfold defaultAddr
  split <;> simp [sameButLog, lineEntries_append, lineEntries]

theorem findHostname_same (env : Env) (s : State) : sameButLog s (findHostname env s).2 := by
  unfold findHostname
  split <;> simp [sameButLog, lineEntries_append, lineEntries]

theorem findHostname_fst (env : Env) (s : State) :
    (findHostname env s).1 = (getHostname env).toOption.getD "127.0.0.1" := by
  unfold findHostname
  split <;> rename_i hg <;> simp [hg, Except.toOption]

theorem newLogger_ok (env : Env) (opts : Options) (s s' : State) (l : Log2Nsq)
    (h : newLogger env opts s = .ok (l, s')) :
    l.core = copyInto opts.ExtraTags
        (((∅ : StrMap).insert "hostname" ((getHostname env).toOption.getD "127.0.0.1")).insert
          "application" opts.AppName) ∧
      sameButLog s s' := by
  unfold newLogger at h
  split at h
  · cases h
  · simp only [] at h
    split at h
    · cases h
    · simp only [Except.ok.injEq, Prod.mk.injEq] at h
      obtain ⟨h1, h2⟩ := h
      subst h1 h2
      exact ⟨by simp [findHostname_fst],
        sameButLog_trans (defaultAddr_same opts s) (findHostname_same env _)⟩

theorem newLogger_core (env : Env) (opts : Options) (s s' : State) (l : Log2Nsq)
    (h : newLogger env opts s = .ok (l, s')) (k : String) :
    l.core.lookup k =
      (opts.ExtraTags.lookup k <|>
        if k = "application" then some opts.AppName
        else if k = "hostname" then some ((getHostname env).toOption.getD "127.0.0.1")
        else none) := by
  rw [(newLogger_ok env opts s s' l h).1, lookup_copyInto]
  congr 1
  by_cases ha : k = "application"
  · subst ha; simp
  · rw [AList.lookup_insert_ne ha]
    by_cases hh : k = "hostname"
    · subst hh
      rw [AList.lookup_insert]
      simp
    · rw [AList.lookup_insert_ne hh]
      simp [ha, hh]

theorem Call.run_eq (env : Env) (c : Call) (s : State) :
    c.run env s = dumpToNsq env 2 c.line c.tag c.params s := by
  cases c <;> rfl

/-- Every public call ends: with the recursion budget 2 (or more) `dumpToNsq`
never runs out of budget. -/
theorem dumpToNsq_total (env : Env) (fuel : Nat) (line sev : String) (params : Params)
    (s : State) : (dumpToNsq env (fuel + 2) line sev params s).final ≠ none := by
  cases h : s.l2n with
  | none => rw [dumpToNsq_none env (fuel + 1) _ _ _ s h]; simp [Res.final]
  | some l =>
    rw [dumpToNsq_some env fuel _ _ _ s l h]
    obtain ⟨s', h1, _⟩ := dispatchWith_final env l line sev params s h
    rw [h1]
    simp

theorem addToQueue_spec (line sev : String) (params : Params) (s : State) :
    (addToQueue line sev params s).errorQueue
        = s.errorQueue ++ [{ line := line, sev := sev, params := params }] ∧
      (addToQueue line sev params s).localLog = s.localLog ++
        (if !s.connected && s.errorQueue.length == 0 then [LogEntry.queuing] else []) ++
        [LogEntry.line line params] ∧
      lineEntries (addToQueue line sev params s).localLog
        = lineEntries s.localLog ++ [(line, params)] ∧
      (addToQueue line sev params s).published = s.published ∧
      (addToQueue line sev params s).sent = s.sent ∧
      (addToQueue line sev params s).built = s.built ∧
      (addToQueue line sev params s).l2n = s.l2n ∧
      (addToQueue line sev params s).connected = s.connected := by
  unfold addToQueue
  by_cases hq : (!s.connected && s.errorQueue.length == 0) = true
  · simp [hq, lineEntries_append, lineEntries]
  · simp [hq, lineEntries_append, lineEntries]

theorem queued_step (env : Env) (fuel : Nat) (line sev : String) (params : Params)
    (s : State) (h : s.l2n = none) :
    ∃ s', dumpToNsq env (fuel + 1) line sev params s = .ok s' ∧
      s'.errorQueue = s.errorQueue ++ [{ line := line, sev := sev, params := params }] ∧
      lineEntries s'.localLog = lineEntries s.localLog ++ [(line, params)] ∧
      s'.published = s.published ∧ s'.l2n = none ∧ s'.connected = s.connected := by
  obtain ⟨h1, _, h3, h4, _, _, h7, h8⟩ := addToQueue_spec line sev params s
  exact ⟨_, dumpToNsq_none env fuel line sev params s h, h1, h3, h4, h7.trans h, h8⟩

/-- C2: a call dispatched while no logger instance exists returns after
appending itself as the last element of `errorQueue` (earlier entries kept in
place) and writing its line to the local log once; nothing is built, handed to
`publish` or sent, `l2n` stays nil and `connected` keeps its value (so it
stays false). -/
theorem dumpToNsq_noInstance_queues (env : Env) (fuel : Nat) (line sev : String)
    (params : Params) (s : State) (h : s.l2n = none) :
    ∃ s', dumpToNsq env (fuel + 1) line sev params s = .ok s' ∧
      s'.errorQueue = s.errorQueue ++ [{ line := line, sev := sev, params := params }] ∧
      s'.localLog = s.localLog ++
        (if !s.connected && s.errorQueue.length == 0 then [LogEntry.queuing] else []) ++
        [LogEntry.line line params] ∧
      lineEntries s'.localLog = lineEntries s.localLog ++ [(line, params)] ∧
      s'.published = s.published ∧ s'.sent = s.sent ∧ s'.built = s.built ∧
      s'.l2n = none ∧ s'.connected = s.connected := by
  obtain ⟨h1, h2, h3, h4, h5, h6, h7, h8⟩ := addToQueue_spec line sev params s
  exact ⟨_, dumpToNsq_none env fuel line sev params s h, h1, h2, h3, h4, h5, h6, h7.trans h, h8⟩

theorem dumpToNsq_noInstance_queues_witness :
    ∃ s', dumpToNsq exampleEnv 2 "hello" "info" none State.init = .ok s' ∧
      s'.errorQueue = [{ line := "hello", sev := "info", params := none }] ∧
      s'.published = [] ∧ s'.l2n = none ∧ s'.connected = false := by
  obtain ⟨s', h1, h2, _, _, h5, _, _, h8, h9⟩ :=
    dumpToNsq_noInstance_queues exampleEnv 1 "hello" "info" none State.init rfl
  exact ⟨s', h1, h2, h5, h8, h9⟩

theorem defaultAddr_log (opts : Options) (s : State) :
    ∃ added, (defaultAddr opts s).2.localLog = s.localLog ++ added ∧
      LogEntry.noAppName ∉ added := by
  unfold defaultAddr
  split
  · exact ⟨[LogEntry.defaultAddr "172.22.34.183:4150"], rfl, by simp⟩
  · exact ⟨[], by simp, by simp⟩

theorem findHostname_log (env : Env) (s : State) :
    ∃ added, (findHostname env s).2.localLog = s.localLog ++ added ∧
      LogEntry.noAppName ∉ added := by
  unfold findHostname
  split
  · exact ⟨[], by simp, by simp⟩
  · rename_i err _
    exact ⟨[LogEntry.hostnameError err, LogEntry.usingLocalhost], rfl, by simp⟩

theorem newLogger_log (env : Env) (opts : Options) (s : State) (h : opts.AppName.length ≠ 0) :
    ∃ s' added, s'.localLog = s.localLog ++ added ∧ LogEntry.noAppName ∉ added ∧
      ((∃ l, newLogger env opts s = .ok (l, s')) ∨ newLogger env opts s = .error s') := by
  have hA : ¬ (opts.AppName.length == 0) = true := by simpa using h
  obtain ⟨a1, ha1, hn1⟩ := defaultAddr_log opts s
  obtain ⟨a2, ha2, hn2⟩ := findHostname_log env (defaultAddr opts s).2
  unfold newLogger
  simp only [hA]
  cases hp : env.newProducer (defaultAddr opts s).1
      (env.sprintf "%s go-nsq/%s" [Value.str opts.AppName, Value.str env.nsqVersion]) with
  | error e =>
    refine ⟨_, a1 ++ a2 ++ [LogEntry.producerFailed (defaultAddr opts s).1], ?_, ?_, Or.inr rfl⟩
    · simp [ha1, ha2]
    · simp [hn1, hn2]
  | ok p =>
    refine ⟨(findHostname env (defaultAddr opts s).2).2, a1 ++ a2, ?_, ?_, Or.inl ⟨_, rfl⟩⟩
    · simp [ha1, ha2]
    · simp [hn1, hn2]

/-- C8: with an empty application name `NewLog2Nsq` ends at the fatal exit
having only written the fatal log line: the outcome does not depend on the
environment (no hostname discovery, no producer), `l2n`, the publications and
the number of envelopes built are unchanged; with a non-empty name that log
line is never written, wherever the call ends. -/
theorem newLog2Nsq_appName (env : Env) (opts : Options) (s : State) :
    (opts.AppName.length = 0 →
      NewLog2Nsq env opts s
        = .fatal { s with localLog := s.localLog ++ [LogEntry.noAppName] }) ∧
    (opts.AppName.length ≠ 0 →
      ∃ s' added, (NewLog2Nsq env opts s).final = some s' ∧
        s'.localLog = s.localLog ++ added ∧ LogEntry.noAppName ∉ added) := by
  constructor
  · intro h
    simp [NewLog2Nsq, newLogger, h]
  · intro h
    obtain ⟨s', added, h1, h2, h3⟩ := newLogger_log env opts s h
    rcases h3 with ⟨l, h3⟩ | h3
    · exact ⟨{ s' with l2n := some l }, added, by simp [NewLog2Nsq, h3, Res.final], h1, h2⟩
    · exact ⟨s', added, by simp [NewLog2Nsq, h3, Res.final], h1, h2⟩

theorem newLog2Nsq_appName_witness :
    NewLog2Nsq exampleEnv { exampleOptions with AppName := "" } State.init
        = .fatal { State.init with localLog := [LogEntry.noAppName] } ∧
      ∃ s' added, (NewLog2Nsq exampleEnv exampleOptions State.init).final = some s' ∧
        s'.localLog = State.init.localLog ++ added ∧ LogEntry.noAppName ∉ added :=
  ⟨(newLog2Nsq_appName exampleEnv { exampleOptions with AppName := "" } State.init).1 (by decide),
    (newLog2Nsq_appName exampleEnv exampleOptions State.init).2 (by decide)⟩

theorem drainEnvelopes_severity_good (env : Env) (l : Log2Nsq) (q : List QueueItem) (n : Nat)
    (hall : ∀ c ∈ q, c.params ≠ some []) :
    (drainEnvelopes env l q n).map (fun e => field e "severity") = q.map (fun c => some c.sev) := by
  have h := congrArg (List.map Prod.snd) (drainEnvelopes_msgSev_good env l q n hall)
  simpa [List.map_map, Function.comp_def, msgSev, QueueItem.msgSev] using h

/-- C7: a call queued while no logger exists is stored with the severity of
its function (`Tracef` debug, `Printf` and `Println` info, `Errorf` error);
a call dispatched with a logger present publishes, in order, one envelope per
pending queue item carrying that item's stored severity and then its own
envelope carrying the severity of its function. The envelopes published are
always a prefix of that list, and the whole list when no argument slice
involved is a non-nil slice of length 0. -/
theorem severity_tagging (env : Env) (c : Call) (s : State) :
    (s.l2n = none → ∃ s', c.run env s = .ok s' ∧
      s'.errorQueue = s.errorQueue ++ [{ line := c.line, sev := c.tag, params := c.params }]) ∧
    (s.l2n ≠ none → ∃ s' new, (c.run env s).final = some s' ∧
      s'.published = s.published ++ new ∧
      new.map (fun e => field e "severity")
        <+: (pending s).map (fun q => some q.sev) ++ [some c.tag] ∧
      ((∀ q ∈ pending s, q.params ≠ some []) → c.params ≠ some [] →
        c.run env s = .ok s' ∧
        new.map (fun e => field e "severity")
          = (pending s).map (fun q => some q.sev) ++ [some c.tag])) := by
  rw [Call.run_eq]
  constructor
  · intro h
    obtain ⟨s', h1, h2, _⟩ := queued_step env 1 c.line c.tag c.params s h
    exact ⟨s', h1, h2⟩
  · intro h
    obtain ⟨l, hl⟩ := Option.ne_none_iff_exists'.mp h
    rw [dumpToNsq_some env 0 _ _ _ s l hl]
    obtain ⟨s', h1, _, _, _, h5, _, h7, _⟩ := dispatchWith_final env l c.line c.tag c.params s hl
    refine ⟨s', _, h1, h5, ?_, ?_⟩
    · have hp := drainEnvelopes_severity_initial env l
        (pending s ++ [{ line := c.line, sev := c.tag, params := c.params }]) s.built
      rw [List.map_append] at hp
      exact hp
    · intro hq hc
      have hall : ∀ q ∈ pending s ++ [{ line := c.line, sev := c.tag, params := c.params }],
          q.params ≠ some [] := by
        intro q hqm
        rcases List.mem_append.mp hqm with hm | hm
        · exact hq q hm
        · rw [List.mem_singleton.mp hm]; exact hc
      refine ⟨(h7 hall).1, ?_⟩
      have hg := drainEnvelopes_severity_good env l _ s.built hall
      rw [List.map_append] at hg
      exact hg

theorem severity_tagging_witness :
    (∃ s', (Call.tracef "boot" none).run exampleEnv State.init = .ok s' ∧
      s'.errorQueue = [{ line := "boot", sev := "debug", params := none }]) ∧
    (∃ s' new,
      (Call.run exampleEnv (Call.errorf "late" none)
        { State.init with
          l2n := some { core := ∅, producer := { addr := "a", userAgent := "u" } },
          errorQueue := [{ line := "boot", sev := "debug", params := none }] }) = .ok s' ∧
      s'.published = new ∧
      new.map (fun e => field e "severity") = [some "debug", some "error"]) := by
  refine ⟨(severity_tagging exampleEnv (Call.tracef "boot" none) State.init).1 rfl, ?_⟩
  obtain ⟨s', new, _, h2, _, h4⟩ :=
    (severity_tagging exampleEnv (Call.errorf "late" none)
      { State.init with
        l2n := some { core := ∅, producer := { addr := "a", userAgent := "u" } },
        errorQueue := [{ line := "boot", sev := "debug", params := none }] }).2 (by decide)
  obtain ⟨h5, h6⟩ := h4 (by decide) (by decide)
  exact ⟨s', new, h5, by simpa [State.init] using h2, h6⟩

theorem newLogger_error (env : Env) (opts : Options) (s s' : State)
    (h : newLogger env opts s = .error s') :
    lineEntries s'.localLog = lineEntries s.localLog := by
  unfold newLogger at h
  split at h
  · simp only [Except.error.injEq] at h
    subst h
    simp [lineEntries_append, lineEntries]
  · simp only [] at h
    split at h
    · simp only [Except.error.injEq] at h
      subst h
      have h1 := (sameButLog_trans (defaultAddr_same opts s)
        (findHostname_same env (defaultAddr opts s).2)).2.2.2.2.2.2
      simp only [lineEntries_append, h1]
      simp [lineEntries]
    · cases h

theorem newLog2Nsq_outcome (env : Env) (opts : Options) (s : State) :
    (∃ s1, NewLog2Nsq env opts s = .ok s1 ∧ s1.l2n ≠ none ∧
        lineEntries s1.localLog = lineEntries s.localLog) ∨
      (∃ s1, NewLog2Nsq env opts s = .fatal s1 ∧
        lineEntries s1.localLog = lineEntries s.localLog) := by
  unfold NewLog2Nsq
  cases h : newLogger env opts s with
  | error s1 => exact Or.inr ⟨s1, rfl, newLogger_error env opts s s1 h⟩
  | ok r =>
    obtain ⟨l, s1⟩ := r
    exact Or.inl ⟨_, rfl, by simp, (newLogger_ok env opts s s1 l h).2.2.2.2.2.2.2⟩

theorem call_outcome (env : Env) (c : Call) (s : State) (h : s.l2n ≠ none) :
    (∃ s1, c.run env s = .ok s1 ∧ s1.l2n ≠ none ∧
        lineEntries s1.localLog = lineEntries s.localLog) ∨
      (∃ s1, c.run env s = .panic s1 ∧
        lineEntries s1.localLog = lineEntries s.localLog) := by
  obtain ⟨l, hl⟩ := Option.ne_none_iff_exists'.mp h
  rw [Call.run_eq, dumpToNsq_some env 0 _ _ _ s l hl]
  obtain ⟨s1, _, h2, _, h4, _, _, h7, h8⟩ := dispatchWith_final env l c.line c.tag c.params s hl
  by_cases hall : ∀ q ∈ pending s ++ [{ line := c.line, sev := c.tag, params := c.params }],
      q.params ≠ some []
  · exact Or.inl ⟨s1, (h7 hall).1, by rw [h2]; simp, h4⟩
  · have hex : ∃ q ∈ pending s ++ [{ line := c.line, sev := c.tag, params := c.params }],
        q.params = some [] := by
      by_contra hne
      exact hall (fun q hq hb => hne ⟨q, hq, hb⟩)
    exact Or.inr ⟨s1, h8 hex, h4⟩

theorem runOps_with_logger (env : Env) :
    ∀ (ops : List Op) (s : State), s.l2n ≠ none →
      ∃ s', (runOps env ops s).final = some s' ∧
        lineEntries s'.localLog = lineEntries s.localLog
  | [], s, _ => ⟨s, rfl, rfl⟩
  | Op.call c :: rest, s, h => by
    rcases call_outcome env c s h with ⟨s1, h1, h2, h3⟩ | ⟨s1, h1, h3⟩
    · obtain ⟨s', g1, g2⟩ := runOps_with_logger env rest s1 h2
      exact ⟨s', by simp only [runOps, Op.run, h1, Res.andThen]; exact g1, g2.trans h3⟩
    · exact ⟨s1, by simp only [runOps, Op.run, h1, Res.andThen, Res.final], h3⟩
  | Op.newLog2Nsq opts :: rest, s, _ => by
    rcases newLog2Nsq_outcome env opts s with ⟨s1, h1, h2, h3⟩ | ⟨s1, h1, h3⟩
    · obtain ⟨s', g1, g2⟩ := runOps_with_logger env rest s1 h2
      exact ⟨s', by simp only [runOps, Op.run, h1, Res.andThen]; exact g1, g2.trans h3⟩
    · exact ⟨s1, by simp only [runOps, Op.run, h1, Res.andThen, Res.final], h3⟩

theorem runOps_without_logger (env : Env) :
    ∀ (ops : List Op) (s : State), s.l2n = none →
      ∃ s', (runOps env ops s).final = some s' ∧
        lineEntries s'.localLog
          = lineEntries s.localLog ++ (queuedCalls ops).map (fun c => (c.line, c.params))
  | [], s, _ => ⟨s, rfl, by simp [queuedCalls]⟩
  | Op.call c :: rest, s, h => by
    obtain ⟨s1, h1, _, h3, _, h5, _⟩ := queued_step env 1 c.line c.tag c.params s h
    rw [← Call.run_eq] at h1
    obtain ⟨s', g1, g2⟩ := runOps_without_logger env rest s1 h5
    refine ⟨s', by simp only [runOps, Op.run, h1, Res.andThen]; exact g1, ?_⟩
    rw [g2, h3]
    simp [queuedCalls]
  | Op.newLog2Nsq opts :: rest, s, _ => by
    rcases newLog2Nsq_outcome env opts s with ⟨s1, h1, h2, h3⟩ | ⟨s1, h1, h3⟩
    · obtain ⟨s', g1, g2⟩ := runOps_with_logger env rest s1 h2
      exact ⟨s', by simp only [runOps, Op.run, h1, Res.andThen]; exact g1,
        by rw [g2, h3]; simp [queuedCalls]⟩
    · exact ⟨s1, by simp only [runOps, Op.run, h1, Res.andThen, Res.final],
        by rw [h3]; simp [queuedCalls]⟩

/-- C5 (as amended): over any run of public operations, wherever it ends, the
calls written to the local log are exactly the calls dispatched while no
logger existed (those before the first `NewLog2Nsq`), each once and in order:
a queued call is written when it is queued and not again when the drain
replays it, and a call dispatched with a logger present is not written to the
local log at all. -/
theorem local_log_only_when_queued (env : Env) (ops : List Op) (s : State) :
    (s.l2n = none → ∃ s', (runOps env ops s).final = some s' ∧
      lineEntries s'.localLog
        = lineEntries s.localLog ++ (queuedCalls ops).map (fun c => (c.line, c.params))) ∧
    (s.l2n ≠ none → ∃ s', (runOps env ops s).final = some s' ∧
      lineEntries s'.localLog = lineEntries s.localLog) :=
  ⟨runOps_without_logger env ops s, runOps_with_logger env ops s⟩

theorem local_log_only_when_queued_witness :
    (∃ s', (runOps exampleEnv
        [Op.call (Call.printf "hello" none), Op.newLog2Nsq exampleOptions,
          Op.call (Call.printf "world" none)] State.init).final = some s' ∧
      lineEntries s'.localLog = [("hello", none)]) ∧
    (∃ s', (runOps exampleEnv [Op.call (Call.printf "world" none)] exampleStarted).final
        = some s' ∧
      lineEntries s'.localLog = lineEntries exampleStarted.localLog) :=
  ⟨(local_log_only_when_queued exampleEnv
      [Op.call (Call.printf "hello" none), Op.newLog2Nsq exampleOptions,
        Op.call (Call.printf "world" none)] State.init).1 rfl,
    (local_log_only_when_queued exampleEnv [Op.call (Call.printf "world" none)]
      exampleStarted).2 (by decide)⟩

/-- C5 fails as stated: after `NewLog2Nsq`, the direct call `Printf("world")`
returns and is published, and the local log holds no line for it. -/
theorem direct_call_not_logged :
    (((NewLog2Nsq exampleEnv exampleOptions State.init).andThen
        (Printf exampleEnv "world" none)).final.map
      (fun s => (s.published.map (fun e => field e "msg"), lineEntries s.localLog, s.localLog)))
      = some ([some "world"], [], [LogEntry.hostnameError "No IP address found",
          LogEntry.usingLocalhost, LogEntry.dumping]) := by
  rfl

theorem newLog2Nsq_ok (env : Env) (opts : Options) (s0 s1 : State)
    (h : NewLog2Nsq env opts s0 = .ok s1) :
    ∃ l s', newLogger env opts s0 = .ok (l, s') ∧ s1 = { s' with l2n := some l } := by
  unfold NewLog2Nsq at h
  split at h
  · cases h
  · rename_i l s' heq
    simp only [Res.ok.injEq] at h
    exact ⟨l, s', heq, h.symm⟩

/-- C6 (as amended): every envelope a call publishes through the logger built
by `NewLog2Nsq(opts)` carries each extra tag whose key is none of `uuid`,
`msg`, `timestamp`, `severity`; it carries `application` = `opts.AppName`
unless the extra tags have that key, and `hostname` = the name `getHostname`
returned (`127.0.0.1` when it failed) unless the extra tags have that key.
A call whose argument slices all resolve publishes its envelopes. -/
theorem extra_tags_in_envelopes (env : Env) (opts : Options) (s0 s1 : State)
    (h : NewLog2Nsq env opts s0 = .ok s1) :
    ∃ l, s1.l2n = some l ∧ ∀ (c : Call) (s : State), s.l2n = some l →
      ∃ s' new, (c.run env s).final = some s' ∧ s'.published = s.published ++ new ∧
        ((∀ q ∈ pending s, q.params ≠ some []) → c.params ≠ some [] →
          new.length = (pending s).length + 1) ∧
        ∀ e ∈ new,
          (∀ k v, opts.ExtraTags.lookup k = some v →
            k ≠ "uuid" → k ≠ "msg" → k ≠ "timestamp" → k ≠ "severity" → field e k = some v) ∧
          (opts.ExtraTags.lookup "application" = none →
            field e "application" = some opts.AppName) ∧
          (opts.ExtraTags.lookup "hostname" = none →
            field e "hostname" = some ((getHostname env).toOption.getD "127.0.0.1")) := by
  obtain ⟨l, s', hl, hs1⟩ := newLog2Nsq_ok env opts s0 s1 h
  refine ⟨l, by rw [hs1], ?_⟩
  intro c s hs
  rw [Call.run_eq, dumpToNsq_some env 0 _ _ _ s l hs]
  obtain ⟨s2, h1, _, _, _, h5, _, _, _⟩ := dispatchWith_final env l c.line c.tag c.params s hs
  refine ⟨s2, _, h1, h5, ?_, ?_⟩
  · intro hq hc
    have hall : ∀ q ∈ pending s, q.params ≠ some [] := hq
    obtain ⟨ha, hlen⟩ := drainEnvelopes_append_good env l
      [{ line := c.line, sev := c.tag, params := c.params }] (pending s) s.built hall
    rw [ha, List.length_append, hlen, drainEnvelopes_single]
    cases hm : resolveMsg env c.line c.params with
    | none => exact absurd ((resolveMsg_eq_none env c.line c.params).mp hm) hc
    | some msg => rfl
  · intro e he
    obtain ⟨q, _, msg, m, _, rfl⟩ := mem_drainEnvelopes env l e _ _ he
    refine ⟨?_, ?_, ?_⟩
    · intro k v hk h1 h2 h3 h4
      rw [field_envelope_core env l msg q.sev m k h1 h2 h3 h4, newLogger_core env opts s0 s' l hl,
        hk]
      rfl
    · intro hk
      rw [field_envelope_core env l msg q.sev m _ (by decide) (by decide) (by decide) (by decide),
        newLogger_core env opts s0 s' l hl, hk]
      rfl
    · intro hk
      rw [field_envelope_core env l msg q.sev m _ (by decide) (by decide) (by decide) (by decide),
        newLogger_core env opts s0 s' l hl, hk]
      rfl

theorem extra_tags_in_envelopes_witness :
    ∃ s' new, ((Call.printf "hello" none).run exampleEnv exampleStarted).final = some s' ∧
      s'.published = exampleStarted.published ++ new ∧ new.length = 1 ∧
      ∀ e ∈ new, field e "region" = some "us" ∧ field e "application" = some "app" ∧
        field e "hostname" = some "127.0.0.1" := by
  obtain ⟨l, hl, H⟩ :=
    extra_tags_in_envelopes exampleEnv exampleOptions State.init exampleStarted rfl
  obtain ⟨s', new, h1, h2, h3, h4⟩ := H (Call.printf "hello" none) exampleStarted hl
  refine ⟨s', new, h1, h2, h3 (by decide) (by decide), ?_⟩
  intro e he
  obtain ⟨h5, h6, h7⟩ := h4 e he
  exact ⟨h5 "region" "us" rfl (by decide) (by decide) (by decide) (by decide), h6 rfl, h7 rfl⟩

/-- C6 fails as stated: with `ExtraTags = {"msg": "tagged", "application":
"other"}` and `AppName = "app"`, the envelope of `Printf("hello")` has
`data.msg == "hello"` (not the tag) and `data.application == "other"` (not the
application name). -/
theorem extra_tag_overridden :
    clashingOptions.ExtraTags.lookup "msg" = some "tagged" ∧
    clashingOptions.AppName = "app" ∧
    (((NewLog2Nsq exampleEnv clashingOptions State.init).andThen
        (Printf exampleEnv "hello" none)).final.map
      (fun s => s.published.map (fun e => (field e "msg", field e "application"))))
      = some [(some "hello", some "other")] :=
  ⟨rfl, rfl, rfl⟩

/-- What holds of every reachable state: once `connected` is set a logger
exists and the queue is empty. -/
theorem reachable_connected {s : State} (h : Reachable s) :
    s.connected = true → s.l2n ≠ none ∧ s.errorQueue = [] := by
  induction h with
  | init => intro h; cases h
  | step env op s s' _ hrun ih =>
    intro hc
    cases op with
    | call c =>
      simp only [Op.run] at hrun
      rw [Call.run_eq] at hrun
      cases hl : s.l2n with
      | none =>
        obtain ⟨s2, h1, _, _, _, _, h9⟩ := queued_step env 1 c.line c.tag c.params s hl
        rw [h1] at hrun
        cases hrun
        rw [h9] at hc
        exact absurd hl (ih hc).1
      | some l =>
        rw [dumpToNsq_some env 0 _ _ _ s l hl] at hrun
        obtain ⟨s2, h1, h2, _, _, _, _, h7, h8⟩ :=
          dispatchWith_final env l c.line c.tag c.params s hl
        by_cases hall : ∀ q ∈ pending s ++ [{ line := c.line, sev := c.tag, params := c.params }],
            q.params ≠ some []
        · obtain ⟨h71, h72⟩ := h7 hall
          rw [h71] at hrun
          cases hrun
          refine ⟨by rw [h2]; simp, ?_⟩
          rw [h72]
          by_cases hcs : s.connected = true
          · simp [hcs, (ih hcs).2]
          · simp [hcs]
        · have hex : ∃ q ∈ pending s ++ [{ line := c.line, sev := c.tag, params := c.params }],
              q.params = some [] := by
            by_contra hne
            exact hall (fun q hq hb => hne ⟨q, hq, hb⟩)
          rw [h8 hex] at hrun
          cases hrun
    | newLog2Nsq opts =>
      simp only [Op.run] at hrun
      obtain ⟨l, s2, hl, hs⟩ := newLog2Nsq_ok env opts s s' hrun
      obtain ⟨_, _, h2, h3, _⟩ := newLogger_ok env opts s s2 l hl
      subst hs
      simp only [] at hc ⊢
      rw [h2] at hc
      exact ⟨by simp, by rw [h3]; exact (ih hc).2⟩

/-- A call in the `Flushed` state: it returns with exactly its own envelope
published, message and severity as resolved, unless its argument slice is a
non-nil slice of length 0, when it panics with nothing published; the state
stays `Flushed` either way. -/
theorem flushed_call (env : Env) (c : Call) (s : State) (h : Flushed s) :
    (c.params ≠ some [] → ∃ s' e, c.run env s = .ok s' ∧ Flushed s' ∧
      s'.published = s.published ++ [e] ∧
      msgSev e = (resolveMsg env c.line c.params, some c.tag)) ∧
    (c.params = some [] → c.run env s = .panic s) := by
  obtain ⟨hl, hc, hq⟩ := h
  obtain ⟨l, hl⟩ := Option.ne_none_iff_exists'.mp hl
  have hd : c.run env s = dumpDirect env c.line c.tag c.params s := by
    rw [Call.run_eq]; exact dumpToNsq_direct env 1 _ _ _ s l hl hc
  rw [hd, dumpDirect_eq env _ _ _ s l hl]
  constructor
  · intro hp
    cases hm : resolveMsg env c.line c.params with
    | none => exact absurd ((resolveMsg_eq_none env c.line c.params).mp hm) hp
    | some msg =>
      refine ⟨_, _, rfl, ⟨?_, ?_, ?_⟩, directState_published env l msg c.tag s, ?_⟩
      · rw [directState_l2n, hl]; simp
      · rw [directState_connected, hc]
      · rw [directState_errorQueue, hq]
      · simp [msgSev, field_envelope_msg, field_envelope_severity]
  · intro hp
    rw [(resolveMsg_eq_none env c.line c.params).mpr hp]

/-- `Flushed` is kept by every public operation that returns. -/
theorem flushed_preserved (env : Env) (op : Op) (s s' : State) (h : Flushed s)
    (hrun : op.run env s = .ok s') : Flushed s' := by
  cases op with
  | call c =>
    simp only [Op.run] at hrun
    by_cases hp : c.params = some []
    · rw [(flushed_call env c s h).2 hp] at hrun
      cases hrun
    · obtain ⟨s2, e, h1, h2, _⟩ := (flushed_call env c s h).1 hp
      rw [h1] at hrun
      cases hrun
      exact h2
  | newLog2Nsq opts =>
    simp only [Op.run] at hrun
    obtain ⟨l, s2, hl, hs⟩ := newLog2Nsq_ok env opts s s' hrun
    obtain ⟨_, _, h2, h3, _⟩ := newLogger_ok env opts s s2 l hl
    subst hs
    exact ⟨by simp, by simp only []; rw [h2]; exact h.2.1, by simp only []; rw [h3]; exact h.2.2⟩

/-- A call that returns with a logger present leaves a reachable state `Flushed`. -/
theorem flushed_after_dispatch (env : Env) (c : Call) (s s' : State) (hr : Reachable s)
    (hl : s.l2n ≠ none) (hrun : c.run env s = .ok s') : Flushed s' := by
  have hr' : Reachable s' := Reachable.step env (Op.call c) s s' hr hrun
  obtain ⟨l, hl⟩ := Option.ne_none_iff_exists'.mp hl
  rw [Call.run_eq, dumpToNsq_some env 0 _ _ _ s l hl] at hrun
  obtain ⟨s2, h1, h2, h3, _⟩ := dispatchWith_final env l c.line c.tag c.params s hl
  rw [hrun] at h1
  simp only [Res.final, Option.some.injEq] at h1
  subst h1
  exact ⟨by rw [h2]; simp, h3, (reachable_connected hr' h3).2⟩

theorem runCalls_noInstance (env : Env) :
    ∀ (cs : List Call) (s : State), s.l2n = none →
      ∃ s', runCalls env cs s = .ok s' ∧ s'.l2n = none ∧ s'.connected = s.connected ∧
        s'.errorQueue = s.errorQueue ++ cs.map Call.item ∧ s'.published = s.published ∧
        lineEntries s'.localLog = lineEntries s.localLog ++ cs.map (fun c => (c.line, c.params))
  | [], s, h => ⟨s, rfl, h, rfl, by simp, rfl, by simp⟩
  | c :: rest, s, h => by
    obtain ⟨s1, h1, h2, h4, h5, h8, h9⟩ := queued_step env 1 c.line c.tag c.params s h
    obtain ⟨s2, g1, g2, g3, g4, g5, g6⟩ := runCalls_noInstance env rest s1 h8
    refine ⟨s2, ?_, g2, g3.trans h9, ?_, g5.trans h5, ?_⟩
    · simp only [runCalls, Call.run_eq, h1, Res.andThen]
      exact g1
    · rw [g4, h2]; simp [Call.item]
    · rw [g6, h4]; simp

/-- The backlog is published in order before the triggering call: when no
queued call and not the triggering call carries a non-nil argument slice of
length 0, the calls `cs` queued from a fresh state, then `NewLog2Nsq`, then
the call `d` publish exactly the envelopes of `cs` in submission order
followed by that of `d`, and leave the state `Flushed`. -/
theorem backlog_published_in_order (env : Env) (opts : Options) (cs : List Call) (d : Call)
    (s : State) (hl : s.l2n = none) (hc : s.connected = false) (hq : s.errorQueue = [])
    (hcs : ∀ c ∈ cs, c.params ≠ some []) (hd : d.params ≠ some []) :
    ∃ s1, runCalls env cs s = .ok s1 ∧ s1.published = s.published ∧
      ∀ s2, NewLog2Nsq env opts s1 = .ok s2 →
        ∃ s3 new, d.run env s2 = .ok s3 ∧ s3.published = s.published ++ new ∧
          new.map msgSev
            = (cs ++ [d]).map (fun c => (resolveMsg env c.line c.params, some c.tag)) ∧
          Flushed s3 := by
  obtain ⟨s1, h1, h2, h3, h4, h5, _⟩ := runCalls_noInstance env cs s hl
  refine ⟨s1, h1, h5, ?_⟩
  intro s2 hnew
  obtain ⟨l, s', hlog, hs2⟩ := newLog2Nsq_ok env opts s1 s2 hnew
  obtain ⟨_, _, g2, g3, g4, _⟩ := newLogger_ok env opts s1 s' l hlog
  have hl2 : s2.l2n = some l := by rw [hs2]
  have hc2 : s2.connected = false := by rw [hs2]; show s'.connected = false; rw [g2, h3, hc]
  have hq2 : s2.errorQueue = cs.map Call.item := by
    rw [hs2]; show s'.errorQueue = _; rw [g3, h4, hq]; rfl
  have hp2 : s2.published = s.published := by
    rw [hs2]; show s'.published = _; rw [g4, h5]
  have hpend : pending s2 = cs.map Call.item := by simp [pending, hc2, hq2]
  obtain ⟨s3, _, k2, k3, _, k5, _, k7, _⟩ := dispatchWith_final env l d.line d.tag d.params s2 hl2
  have hall : ∀ q ∈ pending s2 ++ [{ line := d.line, sev := d.tag, params := d.params }],
      q.params ≠ some [] := by
    intro q hqm
    rcases List.mem_append.mp hqm with hm | hm
    · rw [hpend] at hm
      obtain ⟨c, hcm, rfl⟩ := List.mem_map.mp hm
      exact hcs c hcm
    · rw [List.mem_singleton.mp hm]; exact hd
  obtain ⟨k71, k72⟩ := k7 hall
  refine ⟨s3, _, ?_, by rw [k5, hp2], ?_, ⟨by rw [k2]; simp, k3, ?_⟩⟩
  · rw [Call.run_eq, dumpToNsq_some env 0 _ _ _ s2 l hl2]
    exact k71
  · rw [drainEnvelopes_msgSev_good env l _ s2.built hall, hpend]
    simp [QueueItem.msgSev, Call.item, Function.comp_def]
  · rw [k72]; simp [hc2]

/-- With a logger present a call panics exactly when the pending queue or the
call itself carries a non-nil argument slice of length 0. -/
theorem dispatch_panics_iff (env : Env) (c : Call) (s : State) (h : s.l2n ≠ none) :
    (c.run env s).isPanic = true ↔ ∃ q ∈ pending s ++ [c.item], q.params = some [] := by
  obtain ⟨l, hl⟩ := Option.ne_none_iff_exists'.mp h
  rw [Call.run_eq, dumpToNsq_some env 0 _ _ _ s l hl]
  obtain ⟨s', _, _, _, _, _, _, h7, h8⟩ := dispatchWith_final env l c.line c.tag c.params s hl
  constructor
  · intro hp
    by_contra hne
    have hall : ∀ q ∈ pending s ++ [{ line := c.line, sev := c.tag, params := c.params }],
        q.params ≠ some [] := fun q hq hb => hne ⟨q, hq, hb⟩
    rw [(h7 hall).1] at hp
    cases hp
  · intro hex
    rw [h8 hex]
    rfl

/-- The interface loop of `getHostname` returns no address unless some
interface has the loopback flag set. -/
theorem hostnameLoop_without_loopback :
    ∀ (ifaces : List Iface), (∀ i ∈ ifaces, i.flags &&& FlagLoopback = 0) →
      hostnameLoop ifaces = .error "No IP address found"
  | [], _ => rfl
  | i :: rest, h => by
    have hi : i.flags &&& FlagLoopback = 0 := h i (List.mem_cons_self _ _)
    have hr := hostnameLoop_without_loopback rest (fun j hj => h j (List.mem_cons_of_mem _ hj))
    unfold hostnameLoop
    by_cases hu : (i.flags &&& FlagUp == 0) = true
    · simp only [hu, if_true]; exact hr
    · simp only [hu, hi, beq_self_eq_true, if_true]
      simp [hr]

/-- C1, failing input: `Printf("a", empty...)` (a non-nil slice of length 0)
queued before initialisation, then `NewLog2Nsq`, then `Println("d")`: the
drain panics and no envelope is published, where two are claimed. -/
theorem backlog_empty_slice_panics :
    ((((Printf exampleEnv "a" (some []) State.init).andThen
        (NewLog2Nsq exampleEnv exampleOptions)).andThen (Println exampleEnv "d")).isPanic,
      (((Printf exampleEnv "a" (some []) State.init).andThen
        (NewLog2Nsq exampleEnv exampleOptions)).andThen (Println exampleEnv "d")).final.map
          (fun s => (s.published.length, s.connected, s.errorQueue.length)))
      = (true, some (0, true, 1)) := by
  rfl

/-- C3, failing input: `NewLog2Nsq`, then `Println("first")`, which leaves
the state `Flushed` with one envelope published; the later call
`Tracef("x", empty...)` panics and publishes no envelope of its own (one
envelope in all), where exactly one per later call is claimed. -/
theorem flushed_call_publishes_nothing :
    ((((NewLog2Nsq exampleEnv exampleOptions State.init).andThen
          (Println exampleEnv "first")).final.map
        (fun s => (s.l2n.isSome, s.connected, s.errorQueue.length, s.published.length)),
      (((NewLog2Nsq exampleEnv exampleOptions State.init).andThen
          (Println exampleEnv "first")).andThen (Tracef exampleEnv "x" (some []))).isPanic,
      (((NewLog2Nsq exampleEnv exampleOptions State.init).andThen
          (Println exampleEnv "first")).andThen (Tracef exampleEnv "x" (some []))).final.map
        (fun s => s.published.length))
      = (some (true, true, 0, 1), true, some 1)) := by
  rfl

/-- C4, failing input: in the `Flushed` state reached by `NewLog2Nsq` and
`Println("first")`, `Errorf("x", empty...)` with an empty (non-nil, length 0)
argument slice panics and no envelope with `msg == "x"` is published; with
the nil slice the same call publishes `msg == "x"`. -/
theorem empty_slice_message_not_published :
    ((((NewLog2Nsq exampleEnv exampleOptions State.init).andThen
          (Println exampleEnv "first")).andThen (Errorf exampleEnv "x" (some []))).final.map
        (fun s => s.published.map (fun e => field e "msg")),
      (((NewLog2Nsq exampleEnv exampleOptions State.init).andThen
          (Println exampleEnv "first")).andThen (Errorf exampleEnv "x" (some []))).isPanic,
      (((NewLog2Nsq exampleEnv exampleOptions State.init).andThen
          (Println exampleEnv "first")).andThen (Errorf exampleEnv "x" none)).final.map
        (fun s => s.published.map (fun e => field e "msg")))
      = (some [some "first"], true, some [some "first", some "x"]) := by
  rfl

/-- C9, failing input: one interface that is up and not loopback (flags
up, broadcast, multicast) carrying `192.168.1.5`: `getHostname` returns the
error "No IP address found"; with an up loopback interface carrying the alias
`10.0.0.7` ahead of it, `getHostname` returns the address of that
loopback interface. -/
theorem getHostname_skips_non_loopback :
    getHostname exampleEnv = .error "No IP address found" ∧
      getHostname twoInterfaces = .ok "10.0.0.7" :=
  ⟨rfl, rfl⟩

/-- C10, failing input: `Printf("x", empty...)` with a non-nil argument slice
of length 0 after `NewLog2Nsq`, a logger being present: the read of
`params[0]` panics. -/
theorem empty_slice_panics :
    ((NewLog2Nsq exampleEnv exampleOptions State.init).andThen
      (Printf exampleEnv "x" (some []))).isPanic = true := by
  rfl

end log2nsq
